import Mathlib

/-!
Shallow embedding of the StoreBuddy back end (src/Main.py).

Modelling notes:
* Python's unbounded `int` is embedded as `Int`; Python `float` money values
  are idealised as exact rationals `ℚ`, and Python's `round(x, 2)` (which
  rounds half to even) is embedded as `pyRound2` below.
* The mutable module-level globals `products_db`, `bills_db`, `bill_counter`
  become an explicit state record `St` threaded through the operations;
  handlers that `raise HTTPException` return an `Except Err` value alongside
  the state they leave behind (mutations applied before the raise stay
  applied, exactly as in the Python code).
* Timestamps are not modelled: no claim under verification mentions them,
  and the daily-sales report is the only consumer.
-/

namespace Storebuddy

/-- Embeds the pydantic model `Product` (Main.py lines 15-21). -/
structure Product where
  id : Int
  name : String
  barcode : Option String
  price : ℚ
  quantity : Int
  category : Option String
  deriving DecidableEq, Repr

/-- Embeds the pydantic model `BillItem` (Main.py lines 29-31). -/
structure BillItem where
  product_id : Int
  quantity : Int
  deriving DecidableEq, Repr

/-- One entry of `bill_items_processed` (Main.py lines 151-157). -/
structure BillLine where
  product_id : Int
  product_name : String
  quantity : Int
  unit_price : ℚ
  item_total : ℚ
  deriving DecidableEq, Repr

/-- The `bill_record` dict appended to `bills_db` (Main.py lines 164-172),
minus the timestamp (not modelled). -/
structure BillRecord where
  bill_id : Nat
  customer_id : Option Int
  items : List BillLine
  subtotal : ℚ
  gst_amount : ℚ
  total : ℚ
  deriving DecidableEq, Repr

/-- The errors raised via `HTTPException`: duplicate id on insert (status 400),
missing id (status 404), and insufficient stock (status 400). Each carries the
`detail` message string built by the code. -/
inductive Err where
  | duplicateKey (detail : String)
  | notFound (detail : String)
  | insufficientStock (detail : String)
  deriving DecidableEq, Repr

/-- The module-level mutable globals of Main.py lines 43-46:
`products_db`, `bills_db`, `bill_counter`. -/
structure St where
  products_db : List Product
  bills_db : List BillRecord
  bill_counter : Nat
  deriving DecidableEq, Repr

/-- The initial state: empty collections, counter 0 (Main.py lines 43-46). -/
def init : St := ⟨[], [], 0⟩

/-- Python's `round` rounds ties to the nearest even integer (banker's
rounding); this is its embedding on exact rationals. -/
def roundHalfEven (q : ℚ) : ℤ :=
  if q - ⌊q⌋ < 1 / 2 then ⌊q⌋
  else if 1 / 2 < q - ⌊q⌋ then ⌊q⌋ + 1
  else if ⌊q⌋ % 2 = 0 then ⌊q⌋ else ⌊q⌋ + 1

/-- Python's `round(x, 2)` on the idealised rational money values. -/
def pyRound2 (q : ℚ) : ℚ := (roundHalfEven (q * 100) : ℚ) / 100

/-- Modelled from the spec: the rounding policy §4.2 step 4 claims, namely
"half-up to 2 decimal places" (ties rounded upward). This is NOT the
embedding of the code; it exists only to be compared against `pyRound2`.
(Mathlib's `round` is `⌊x + 1/2⌋`, which rounds ties up.) -/
def specRoundHalfUp2 (q : ℚ) : ℚ := (round (q * 100) : ℚ) / 100

/-- The product-lookup loop `for p in products_db: if p.id == pid: ...`
used by `get_product` and `create_bill` (Main.py lines 79-81, 129-132):
first record with the given id, if any. -/
def find_product : List Product → Int → Option Product
  | [], _ => none
  | p :: rest, pid => if p.id = pid then some p else find_product rest pid

/-- `product.quantity -= item.quantity` (Main.py line 148): decrement the
stock of the first record with the given id, in place. -/
def dec_stock : List Product → Int → Int → List Product
  | [], _, _ => []
  | p :: rest, pid, qty =>
    if p.id = pid then { p with quantity := p.quantity - qty } :: rest
    else p :: dec_stock rest pid qty

/-- The detail string of Main.py line 135. -/
def notFoundMsg (pid : Int) : String :=
  "Product ID " ++ toString pid ++ " not found"

/-- The detail string of Main.py line 140. -/
def insuffMsg (name : String) (available requested : Int) : String :=
  "Insufficient stock for " ++ name ++ ". Available: " ++ toString available ++
    ", Requested: " ++ toString requested

/-- The dict appended to `bill_items_processed` (Main.py lines 151-157). -/
def mkLine (product : Product) (item : BillItem) : BillLine :=
  ⟨product.id, product.name, item.quantity, product.price,
    product.price * (item.quantity : ℚ)⟩

/-- The `for item in items` loop of `create_bill` (Main.py lines 126-157):
threads the catalog, the running subtotal and the processed lines; on the
first failure it stops, returning the catalog as mutated so far. -/
def process_items :
    List Product → List BillItem → ℚ → List BillLine →
      List Product × Except Err (ℚ × List BillLine)
  | db, [], subtotal, acc => (db, .ok (subtotal, acc))
  | db, item :: rest, subtotal, acc =>
    match find_product db item.product_id with
    | none => (db, .error (.notFound (notFoundMsg item.product_id)))
    | some product =>
      if product.quantity < item.quantity then
        (db, .error (.insufficientStock
          (insuffMsg product.name product.quantity item.quantity)))
      else
        process_items (dec_stock db item.product_id item.quantity) rest
          (subtotal + product.price * (item.quantity : ℚ))
          (acc ++ [mkLine product item])

/-- `create_bill` (Main.py lines 117-180). The counter is incremented first
(line 120), before any validation, so failed calls also advance it. On
success the priced record is appended to the ledger and returned. -/
def create_bill (st : St) (items : List BillItem) (customer_id : Option Int) :
    St × Except Err BillRecord :=
  let counter := st.bill_counter + 1
  match process_items st.products_db items 0 [] with
  | (db1, .error e) =>
    ({ st with products_db := db1, bill_counter := counter }, .error e)
  | (db1, .ok (subtotal, lines)) =>
    let gst_amount := pyRound2 (subtotal * (18 / 100))
    let total := pyRound2 (subtotal + gst_amount)
    let record : BillRecord :=
      ⟨counter, customer_id, lines, subtotal, gst_amount, total⟩
    ({ products_db := db1, bills_db := st.bills_db ++ [record],
       bill_counter := counter }, .ok record)

/-- `add_product` (Main.py lines 67-75): rejects an existing id, otherwise
appends and returns the stored record. -/
def add_product (db : List Product) (product : Product) :
    List Product × Except Err Product :=
  if db.any (fun existing => existing.id = product.id) then
    (db, .error (.duplicateKey "Product ID already exists"))
  else
    (db ++ [product], .ok product)

/-- `get_product` (Main.py lines 77-82). -/
def get_product (db : List Product) (product_id : Int) : Except Err Product :=
  match find_product db product_id with
  | some p => .ok p
  | none => .error (.notFound "Product not found")

/-- `update_product` (Main.py lines 84-91): replaces the first record whose
id matches the path id with the supplied record, forcing its id back to the
path id (line 88). -/
def update_product : List Product → Int → Product → List Product × Except Err Product
  | [], _, _ => ([], .error (.notFound "Product not found"))
  | p :: rest, product_id, updated =>
    if p.id = product_id then
      ({ updated with id := product_id } :: rest,
       .ok { updated with id := product_id })
    else
      match update_product rest product_id updated with
      | (rest1, r) => (p :: rest1, r)

/-- `delete_product` (Main.py lines 93-99): removes the first record whose
id matches. -/
def delete_product : List Product → Int → List Product × Except Err String
  | [], _ => ([], .error (.notFound "Product not found"))
  | p :: rest, product_id =>
    if p.id = product_id then (rest, .ok "Product deleted successfully")
    else
      match delete_product rest product_id with
      | (rest1, r) => (p :: rest1, r)

/-- The response of `get_inventory_status` (Main.py lines 201-212). -/
structure InventoryStatus where
  total_products : Nat
  low_stock_items : Nat
  out_of_stock_items : Nat
  low_stock_products : List Product
  out_of_stock_products : List Product
  deriving DecidableEq, Repr

/-- `get_inventory_status` (Main.py lines 201-212): filters the catalog into
low-stock (quantity < 10) and out-of-stock (quantity == 0) lists. -/
def get_inventory_status (db : List Product) : InventoryStatus :=
  let low_stock_products := db.filter (fun p => decide (p.quantity < 10))
  let out_of_stock := db.filter (fun p => p.quantity = 0)
  ⟨db.length, low_stock_products.length, out_of_stock.length,
    low_stock_products, out_of_stock⟩

/-- A sequence of calls to `create_bill` (each a request body: items plus
optional customer id), run from a starting state. -/
def run_bills : St → List (List BillItem × Option Int) → St
  | st, [] => st
  | st, (items, cid) :: rest => run_bills (create_bill st items cid).1 rest

/-- The catalog invariant of spec §3: identifier uniqueness. -/
def idsUnique (db : List Product) : Prop := (db.map (fun p => p.id)).Nodup

/-- The catalog invariant of spec §3: quantity on hand never negative. -/
def allNonneg (db : List Product) : Prop := ∀ p ∈ db, 0 ≤ p.quantity

instance (db : List Product) : Decidable (idsUnique db) :=
  inferInstanceAs (Decidable ((db.map (fun p : Product => p.id)).Nodup))

instance (db : List Product) : Decidable (allNonneg db) :=
  inferInstanceAs (Decidable (∀ p ∈ db, 0 ≤ p.quantity))

/-! ### Helper lemmas about the catalog loops -/

lemma find_product_dec_stock (db : List Product) (pid qty : Int) (p : Product)
    (h : find_product db pid = some p) :
    find_product (dec_stock db pid qty) pid =
      some { p with quantity := p.quantity - qty } := by
  induction db with
  | nil => simp [find_product] at h
  | cons q rest ih =>
    by_cases hq : q.id = pid
    · rw [find_product, if_pos hq] at h
      cases h
      simp [dec_stock, hq, find_product]
    · rw [find_product, if_neg hq] at h
      simp only [dec_stock, if_neg hq, find_product]
      exact ih h

lemma find_product_none_dec_stock (db : List Product) (x pid qty : Int)
    (h : find_product db x = none) :
    find_product (dec_stock db pid qty) x = none := by
  induction db with
  | nil => simpa [dec_stock] using h
  | cons q rest ih =>
    rw [find_product] at h
    by_cases hx : q.id = x
    · rw [if_pos hx] at h; cases h
    · rw [if_neg hx] at h
      by_cases hp : q.id = pid
      · simp only [dec_stock, if_pos hp, find_product]
        rw [if_neg hx]
        exact h
      · simp only [dec_stock, if_neg hp, find_product]
        rw [if_neg hx]
        exact ih h

lemma dec_stock_zero (db : List Product) (pid : Int) : dec_stock db pid 0 = db := by
  induction db with
  | nil => rfl
  | cons q rest ih =>
    by_cases hq : q.id = pid
    · simp only [dec_stock, if_pos hq, sub_zero]
    · simp [dec_stock, hq, ih]

lemma dec_stock_ids (db : List Product) (pid qty : Int) :
    (dec_stock db pid qty).map (fun p => p.id) = db.map (fun p => p.id) := by
  induction db with
  | nil => rfl
  | cons q rest ih =>
    by_cases hq : q.id = pid
    · simp [dec_stock, hq]
    · simp [dec_stock, hq, ih]

lemma find_product_mem (db : List Product) (pid : Int) (p : Product)
    (h : find_product db pid = some p) : p ∈ db := by
  induction db with
  | nil => simp [find_product] at h
  | cons q rest ih =>
    rw [find_product] at h
    by_cases hq : q.id = pid
    · rw [if_pos hq] at h; cases h; exact List.mem_cons_self _ _
    · rw [if_neg hq] at h; exact List.mem_cons_of_mem _ (ih h)

lemma dec_stock_nonneg (db : List Product) (pid qty : Int) (p : Product)
    (hall : allNonneg db) (hfind : find_product db pid = some p)
    (hqty : qty ≤ p.quantity) : allNonneg (dec_stock db pid qty) := by
  induction db with
  | nil => simp [dec_stock, allNonneg]
  | cons q rest ih =>
    rw [find_product] at hfind
    by_cases hq : q.id = pid
    · rw [if_pos hq] at hfind
      cases hfind
      intro r hr
      rw [dec_stock, if_pos hq] at hr
      rcases List.mem_cons.1 hr with h | h
      · subst h; simpa using Int.sub_nonneg.2 hqty
      · exact hall _ (List.mem_cons_of_mem _ h)
    · rw [if_neg hq] at hfind
      intro r hr
      rw [dec_stock, if_neg hq] at hr
      rcases List.mem_cons.1 hr with h | h
      · subst h; exact hall _ (List.mem_cons_self _ _)
      · exact ih (fun x hx => hall _ (List.mem_cons_of_mem _ hx)) hfind _ h

/-! ### Helper lemmas about the item-processing loop -/

lemma process_items_append (xs ys : List BillItem) :
    ∀ (db : List Product) (s : ℚ) (acc : List BillLine),
      process_items db (xs ++ ys) s acc =
        match process_items db xs s acc with
        | (db1, .ok (s1, acc1)) => process_items db1 ys s1 acc1
        | (db1, .error e) => (db1, .error e) := by
  induction xs with
  | nil => intro db s acc; simp [process_items]
  | cons item rest ih =>
    intro db s acc
    rw [List.cons_append, process_items, process_items]
    cases hf : find_product db item.product_id with
    | none => simp
    | some product =>
      by_cases hq : product.quantity < item.quantity
      · simp [hq]
      · simp only [if_neg hq]
        exact ih _ _ _

lemma process_items_find_none (items : List BillItem) :
    ∀ (db : List Product) (s : ℚ) (acc : List BillLine) (x : Int),
      find_product db x = none →
      find_product (process_items db items s acc).1 x = none := by
  induction items with
  | nil => intro db s acc x h; simpa [process_items] using h
  | cons item rest ih =>
    intro db s acc x h
    rw [process_items]
    cases hf : find_product db item.product_id with
    | none => simpa using h
    | some product =>
      by_cases hq : product.quantity < item.quantity
      · simpa [hq] using h
      · simp only [if_neg hq]
        exact ih _ _ _ _ (find_product_none_dec_stock _ _ _ _ h)

lemma process_items_ids (items : List BillItem) :
    ∀ (db : List Product) (s : ℚ) (acc : List BillLine),
      ((process_items db items s acc).1).map (fun p => p.id) =
        db.map (fun p => p.id) := by
  induction items with
  | nil => intro db s acc; simp [process_items]
  | cons item rest ih =>
    intro db s acc
    rw [process_items]
    cases hf : find_product db item.product_id with
    | none => simp
    | some product =>
      by_cases hq : product.quantity < item.quantity
      · simp [hq]
      · simp only [if_neg hq]
        rw [ih]
        exact dec_stock_ids _ _ _

lemma process_items_nonneg (items : List BillItem) :
    ∀ (db : List Product) (s : ℚ) (acc : List BillLine),
      allNonneg db → allNonneg (process_items db items s acc).1 := by
  induction items with
  | nil => intro db s acc h; simpa [process_items] using h
  | cons item rest ih =>
    intro db s acc h
    rw [process_items]
    cases hf : find_product db item.product_id with
    | none => simpa using h
    | some product =>
      by_cases hq : product.quantity < item.quantity
      · simpa [hq] using h
      · simp only [if_neg hq]
        exact ih _ _ _ (dec_stock_nonneg _ _ _ _ h hf (le_of_not_lt hq))

/-- Whatever the outcome, `create_bill` advances the counter by one
(`bill_counter += 1` runs before any validation, Main.py line 120). -/
lemma create_bill_counter (st : St) (items : List BillItem) (cid : Option Int) :
    (create_bill st items cid).1.bill_counter = st.bill_counter + 1 := by
  cases hp : process_items st.products_db items 0 [] with
  | mk db1 r =>
    cases r with
    | error e => simp [create_bill, hp]
    | ok v =>
      cases v with
      | mk s ls => simp [create_bill, hp]

/-- Evaluation of `create_bill` on a single-item request whose product is in
stock: the generic success case shared by several claims. -/
lemma create_bill_single (st : St) (pid qty : Int) (cid : Option Int)
    (p : Product) (hfind : find_product st.products_db pid = some p)
    (hstock : qty ≤ p.quantity) :
    create_bill st [⟨pid, qty⟩] cid =
      ({ products_db := dec_stock st.products_db pid qty,
         bills_db := st.bills_db ++
           [⟨st.bill_counter + 1, cid, [mkLine p ⟨pid, qty⟩],
             p.price * (qty : ℚ),
             pyRound2 (p.price * (qty : ℚ) * (18 / 100)),
             pyRound2 (p.price * (qty : ℚ) +
               pyRound2 (p.price * (qty : ℚ) * (18 / 100)))⟩],
         bill_counter := st.bill_counter + 1 },
       .ok ⟨st.bill_counter + 1, cid, [mkLine p ⟨pid, qty⟩],
         p.price * (qty : ℚ),
         pyRound2 (p.price * (qty : ℚ) * (18 / 100)),
         pyRound2 (p.price * (qty : ℚ) +
           pyRound2 (p.price * (qty : ℚ) * (18 / 100)))⟩) := by
  have hq : ¬(p.quantity < qty) := not_lt.2 hstock
  simp [create_bill, process_items, hfind, hq, zero_add]

/-! ### The claims -/

/-- Claim C6: adding a product whose identifier already exists in the catalog
fails with DuplicateKey and leaves the catalog unchanged; adding a product
with a fresh identifier appends it and returns the stored record. -/
theorem C6_add_product (db : List Product) (product : Product) :
    ((∃ q ∈ db, q.id = product.id) →
      add_product db product =
        (db, .error (.duplicateKey "Product ID already exists")))
    ∧ ((∀ q ∈ db, q.id ≠ product.id) →
      add_product db product = (db ++ [product], .ok product)) := by
  constructor
  · intro h
    have ha : db.any (fun existing => existing.id = product.id) = true := by
      simpa [List.any_eq_true] using h
    simp [add_product, ha]
  · intro h
    have ha : db.any (fun existing => existing.id = product.id) = false := by
      simpa [List.any_eq_false] using h
    simp [add_product, ha]

/-- Witness for C6 at a concrete catalog: a duplicate id is rejected with the
catalog untouched, a fresh id is appended. -/
theorem C6_add_product_witness :
    add_product [⟨1, "A", none, 2, 3, none⟩] ⟨1, "B", none, 5, 7, none⟩ =
      ([⟨1, "A", none, 2, 3, none⟩],
        .error (.duplicateKey "Product ID already exists"))
    ∧ add_product [⟨1, "A", none, 2, 3, none⟩] ⟨2, "B", none, 5, 7, none⟩ =
      ([⟨1, "A", none, 2, 3, none⟩, ⟨2, "B", none, 5, 7, none⟩],
        .ok ⟨2, "B", none, 5, 7, none⟩) :=
  ⟨(C6_add_product _ _).1 ⟨⟨1, "A", none, 2, 3, none⟩, by simp, rfl⟩,
   (C6_add_product _ _).2 (by simp)⟩

/-- Claim C8: the inventory-status report lists a product as low-stock exactly
when its quantity is below 10 and as out-of-stock exactly when its quantity is
0, with the reported counts matching the lists; a product with quantity 0 is in
both lists, quantity 9 only in the low-stock list, quantity 10 in neither. -/
theorem C8_inventory_status (db : List Product) (p : Product) :
    (p ∈ (get_inventory_status db).low_stock_products ↔
      p ∈ db ∧ p.quantity < 10)
    ∧ (p ∈ (get_inventory_status db).out_of_stock_products ↔
      p ∈ db ∧ p.quantity = 0)
    ∧ (get_inventory_status db).low_stock_items =
      (get_inventory_status db).low_stock_products.length
    ∧ (get_inventory_status db).out_of_stock_items =
      (get_inventory_status db).out_of_stock_products.length
    ∧ (get_inventory_status db).total_products = db.length
    ∧ (p ∈ db → p.quantity = 0 →
      p ∈ (get_inventory_status db).low_stock_products ∧
      p ∈ (get_inventory_status db).out_of_stock_products)
    ∧ (p ∈ db → p.quantity = 9 →
      p ∈ (get_inventory_status db).low_stock_products ∧
      p ∉ (get_inventory_status db).out_of_stock_products)
    ∧ (p ∈ db → p.quantity = 10 →
      p ∉ (get_inventory_status db).low_stock_products ∧
      p ∉ (get_inventory_status db).out_of_stock_products) := by
  refine ⟨?_, ?_, rfl, rfl, rfl, ?_, ?_, ?_⟩ <;>
    simp [get_inventory_status, List.mem_filter] <;>
    intro hmem hq <;> simp [hmem, hq]

/-- Witness for C8: a quantity-0 product appears in both report lists. -/
theorem C8_inventory_status_witness :
    (⟨1, "A", none, 2, 0, none⟩ : Product) ∈
      (get_inventory_status [⟨1, "A", none, 2, 0, none⟩]).low_stock_products ∧
    (⟨1, "A", none, 2, 0, none⟩ : Product) ∈
      (get_inventory_status [⟨1, "A", none, 2, 0, none⟩]).out_of_stock_products :=
  (C8_inventory_status [⟨1, "A", none, 2, 0, none⟩]
    ⟨1, "A", none, 2, 0, none⟩).2.2.2.2.2.1 (by simp) rfl

/-- Claim C9: updating by id fails with NotFound when no record carries the
path id, and otherwise replaces the first matching record's fields with the
supplied record while forcing the stored id back to the path id (even when the
supplied record carries a different id), leaving every other entry unchanged. -/
theorem C9_update_product (db : List Product) (pid : Int) (up : Product) :
    ((∀ q ∈ db, q.id ≠ pid) →
      update_product db pid up = (db, .error (.notFound "Product not found")))
    ∧ (∀ i : Fin db.length, (db.get i).id = pid →
      (∀ j : Fin db.length, (j : ℕ) < (i : ℕ) → (db.get j).id ≠ pid) →
      update_product db pid up =
        (db.set i { up with id := pid }, .ok { up with id := pid })) := by
  constructor
  · intro h
    induction db with
    | nil => rfl
    | cons q rest ih =>
      have hq : q.id ≠ pid := h q (List.mem_cons_self _ _)
      rw [update_product, if_neg hq,
        ih (fun x hx => h x (List.mem_cons_of_mem _ hx))]
  · induction db with
    | nil => exact fun i => absurd i.2 (by simp)
    | cons q rest ih =>
      rintro ⟨iv, hi⟩ hid hbefore
      cases iv with
      | zero =>
        have hq : q.id = pid := hid
        rw [update_product, if_pos hq]
        rfl
      | succ n =>
        have hq : q.id ≠ pid := hbefore ⟨0, Nat.succ_pos _⟩ (Nat.succ_pos _)
        have hrec := ih ⟨n, Nat.lt_of_succ_lt_succ hi⟩ hid
          (fun j hj => hbefore ⟨(j : ℕ) + 1, Nat.succ_lt_succ j.2⟩
            (Nat.succ_lt_succ hj))
        rw [update_product, if_neg hq, hrec]
        rfl

/-- Witness for C9 at a concrete catalog: an absent id reports NotFound, and
an update whose body carries a different id is stored under the path id. -/
theorem C9_update_product_witness :
    update_product [⟨1, "A", none, 2, 3, none⟩] 7 ⟨9, "B", none, 5, 6, none⟩ =
      ([⟨1, "A", none, 2, 3, none⟩], .error (.notFound "Product not found"))
    ∧ update_product [⟨1, "A", none, 2, 3, none⟩] 1 ⟨9, "B", none, 5, 6, none⟩ =
      ([⟨1, "B", none, 5, 6, none⟩], .ok ⟨1, "B", none, 5, 6, none⟩) :=
  ⟨(C9_update_product _ _ _).1 (by simp),
   (C9_update_product [⟨1, "A", none, 2, 3, none⟩] 1 ⟨9, "B", none, 5, 6, none⟩).2
     ⟨0, by simp⟩ rfl (fun j hj => absurd (Nat.lt_of_lt_of_le hj (Nat.zero_le _))
       (Nat.lt_irrefl _))⟩

/-- `pyRound2` at zero. -/
lemma pyRound2_zero : pyRound2 0 = 0 := by
  norm_num [pyRound2, roundHalfEven]

/-- Claim C2: a single-item bill request whose product is in the catalog with
stock at least the requested quantity succeeds; the returned line total is
unit price times quantity, the returned subtotal is the sum of the line
totals, and the product's stock decreases by exactly the requested quantity. -/
theorem C2_single_item_bill (st : St) (pid qty : Int) (cid : Option Int)
    (p : Product) (hfind : find_product st.products_db pid = some p)
    (hstock : qty ≤ p.quantity) :
    (create_bill st [⟨pid, qty⟩] cid).2 =
      .ok ⟨st.bill_counter + 1, cid, [mkLine p ⟨pid, qty⟩],
        (([mkLine p ⟨pid, qty⟩]).map (fun l => l.item_total)).sum,
        pyRound2 (p.price * (qty : ℚ) * (18 / 100)),
        pyRound2 (p.price * (qty : ℚ) +
          pyRound2 (p.price * (qty : ℚ) * (18 / 100)))⟩
    ∧ (mkLine p ⟨pid, qty⟩).item_total = p.price * (qty : ℚ)
    ∧ find_product (create_bill st [⟨pid, qty⟩] cid).1.products_db pid =
        some { p with quantity := p.quantity - qty } := by
  have h := create_bill_single st pid qty cid p hfind hstock
  refine ⟨?_, rfl, ?_⟩
  · rw [h]
    simp [mkLine]
  · rw [h]
    exact find_product_dec_stock _ _ _ _ hfind

/-- Witness for C2: one product with price 50 and stock 10, two units
requested; the bill totals are 100/18/118 and the stock drops to 8. -/
theorem C2_single_item_bill_witness :
    (create_bill ⟨[⟨1, "A", none, 50, 10, none⟩], [], 0⟩ [⟨1, 2⟩] none).2 =
      .ok ⟨1, none, [⟨1, "A", 2, 50, 100⟩], 100, 18, 118⟩
    ∧ find_product
        (create_bill ⟨[⟨1, "A", none, 50, 10, none⟩], [], 0⟩
          [⟨1, 2⟩] none).1.products_db 1 =
      some ⟨1, "A", none, 50, 8, none⟩ := by
  have h := C2_single_item_bill ⟨[⟨1, "A", none, 50, 10, none⟩], [], 0⟩ 1 2 none
    ⟨1, "A", none, 50, 10, none⟩ rfl (by decide)
  refine ⟨?_, ?_⟩
  · rw [h.1]
    norm_num [mkLine, pyRound2, roundHalfEven]
  · rw [h.2.2]
    norm_num

/-- Claim C5: when the item being processed names a product whose stock is
below the requested quantity, the call fails with InsufficientStock and the
message reports the product's name, the available quantity and the requested
quantity; when the requested quantity is at most the stock, that item raises
no error and processing moves on to the remaining items. -/
theorem C5_insufficient_stock (st : St) (item : BillItem)
    (rest : List BillItem) (cid : Option Int) (p : Product)
    (hfind : find_product st.products_db item.product_id = some p) :
    (p.quantity < item.quantity →
      create_bill st (item :: rest) cid =
        ({ st with bill_counter := st.bill_counter + 1 },
         .error (.insufficientStock
           (insuffMsg p.name p.quantity item.quantity))))
    ∧ (item.quantity ≤ p.quantity →
      process_items st.products_db (item :: rest) 0 [] =
        process_items (dec_stock st.products_db item.product_id item.quantity)
          rest (0 + p.price * (item.quantity : ℚ)) [mkLine p item]) := by
  constructor
  · intro hlt
    simp [create_bill, process_items, hfind, hlt]
  · intro hle
    simp only [process_items, hfind]
    rw [if_neg (not_lt.2 hle)]
    rfl

/-- Witness for C5: stock 1, requested 2; the call fails reporting name "A",
available 1, requested 2. -/
theorem C5_insufficient_stock_witness :
    create_bill ⟨[⟨1, "A", none, 3, 1, none⟩], [], 0⟩ [⟨1, 2⟩] none =
      (⟨[⟨1, "A", none, 3, 1, none⟩], [], 1⟩,
       .error (.insufficientStock
         "Insufficient stock for A. Available: 1, Requested: 2")) :=
  (C5_insufficient_stock ⟨[⟨1, "A", none, 3, 1, none⟩], [], 0⟩ ⟨1, 2⟩ [] none
    ⟨1, "A", none, 3, 1, none⟩ rfl).1 (by decide)

/-- Claim C10: a bill item with zero quantity passes the stock check (for a
non-negative stock level), leaves the stock unchanged and contributes a zero
line total; a negative quantity passes the stock check whenever the stock is
at least that negative value, increases the stock by its absolute value, and
contributes a negative line total whenever the unit price is positive. -/
theorem C10_nonpositive_quantities (st : St) (pid : Int) (cid : Option Int)
    (p : Product) (hfind : find_product st.products_db pid = some p) :
    (0 ≤ p.quantity →
      create_bill st [⟨pid, 0⟩] cid =
        ({ products_db := st.products_db,
           bills_db := st.bills_db ++
             [⟨st.bill_counter + 1, cid, [mkLine p ⟨pid, 0⟩], 0, 0, 0⟩],
           bill_counter := st.bill_counter + 1 },
         .ok ⟨st.bill_counter + 1, cid, [mkLine p ⟨pid, 0⟩], 0, 0, 0⟩)
      ∧ (mkLine p ⟨pid, 0⟩).item_total = 0)
    ∧ (∀ qty : Int, qty < 0 → qty ≤ p.quantity →
      (create_bill st [⟨pid, qty⟩] cid).2 =
        .ok ⟨st.bill_counter + 1, cid, [mkLine p ⟨pid, qty⟩],
          p.price * (qty : ℚ),
          pyRound2 (p.price * (qty : ℚ) * (18 / 100)),
          pyRound2 (p.price * (qty : ℚ) +
            pyRound2 (p.price * (qty : ℚ) * (18 / 100)))⟩
      ∧ find_product (create_bill st [⟨pid, qty⟩] cid).1.products_db pid =
          some { p with quantity := p.quantity + (qty.natAbs : Int) }
      ∧ p.quantity < p.quantity + (qty.natAbs : Int)
      ∧ (0 < p.price → (mkLine p ⟨pid, qty⟩).item_total < 0)) := by
  constructor
  · intro h0
    have h := create_bill_single st pid 0 cid p hfind h0
    constructor
    · rw [h, dec_stock_zero]
      norm_num [mkLine, pyRound2_zero]
    · simp [mkLine]
  · intro qty hneg hle
    have h := create_bill_single st pid qty cid p hfind hle
    have habs : p.quantity - qty = p.quantity + (qty.natAbs : Int) := by omega
    refine ⟨?_, ?_, by omega, ?_⟩
    · rw [h]
    · rw [h]
      rw [show ({ p with quantity := p.quantity + (qty.natAbs : Int) } : Product) =
        { p with quantity := p.quantity - qty } by rw [habs]]
      exact find_product_dec_stock _ _ _ _ hfind
    · intro hp
      have hq : (qty : ℚ) < 0 := by exact_mod_cast hneg
      simpa [mkLine] using mul_neg_of_pos_of_neg hp hq

/-- Witness for C10: stock 5; a zero-quantity item bills 0 and leaves stock
at 5; a quantity of -2 is accepted and raises the stock to 7 with line
total -6 at unit price 3. -/
theorem C10_nonpositive_quantities_witness :
    create_bill ⟨[⟨1, "A", none, 3, 5, none⟩], [], 0⟩ [⟨1, 0⟩] none =
      (⟨[⟨1, "A", none, 3, 5, none⟩],
        [⟨1, none, [⟨1, "A", 0, 3, 0⟩], 0, 0, 0⟩], 1⟩,
       .ok ⟨1, none, [⟨1, "A", 0, 3, 0⟩], 0, 0, 0⟩)
    ∧ find_product
        (create_bill ⟨[⟨1, "A", none, 3, 5, none⟩], [], 0⟩
          [⟨1, -2⟩] none).1.products_db 1 =
      some ⟨1, "A", none, 3, 7, none⟩ := by
  have h0 := (C10_nonpositive_quantities ⟨[⟨1, "A", none, 3, 5, none⟩], [], 0⟩ 1
    none ⟨1, "A", none, 3, 5, none⟩ rfl).1 (by decide)
  have hn := (C10_nonpositive_quantities ⟨[⟨1, "A", none, 3, 5, none⟩], [], 0⟩ 1
    none ⟨1, "A", none, 3, 5, none⟩ rfl).2 (-2) (by decide) (by decide)
  refine ⟨?_, ?_⟩
  · rw [h0.1]
    norm_num [mkLine]
  · rw [hn.2.1]
    norm_num

/-- Claim C4: a bill request whose first missing-product item is reached after
the earlier items processed successfully fails with NotFound naming that id;
no record is appended to the ledger, the catalog is left exactly as the
already-processed items mutated it (so products in the not-yet-processed items
are untouched, and earlier decrements are not rolled back). -/
theorem C4_not_found_abort (st : St) (pre : List BillItem) (bad : BillItem)
    (post : List BillItem) (cid : Option Int) (db1 : List Product) (s : ℚ)
    (ls : List BillLine)
    (hpre : process_items st.products_db pre 0 [] = (db1, .ok (s, ls)))
    (hmiss : find_product st.products_db bad.product_id = none) :
    create_bill st (pre ++ bad :: post) cid =
      ({ st with products_db := db1, bill_counter := st.bill_counter + 1 },
       .error (.notFound (notFoundMsg bad.product_id))) := by
  have h1 : find_product db1 bad.product_id = none := by
    have h := process_items_find_none pre st.products_db 0 [] bad.product_id hmiss
    rwa [hpre] at h
  have h2 : process_items st.products_db (pre ++ bad :: post) 0 [] =
      (db1, .error (.notFound (notFoundMsg bad.product_id))) := by
    rw [process_items_append, hpre]
    simp only [process_items, h1]
  simp [create_bill, h2]

/-- Witness for C4: item 1 (price 2, stock 5) buys 2 units, then product 99
is missing; the call reports NotFound for 99, appends nothing, and leaves the
stock of product 1 at the already-decremented value 3. -/
theorem C4_not_found_abort_witness :
    create_bill ⟨[⟨1, "A", none, 2, 5, none⟩], [], 0⟩
        ([⟨1, 2⟩] ++ ⟨99, 1⟩ :: [⟨1, 1⟩]) none =
      (⟨[⟨1, "A", none, 2, 3, none⟩], [], 1⟩,
       .error (.notFound "Product ID 99 not found")) := by
  have h := C4_not_found_abort ⟨[⟨1, "A", none, 2, 5, none⟩], [], 0⟩ [⟨1, 2⟩]
    ⟨99, 1⟩ [⟨1, 1⟩] none [⟨1, "A", none, 2, 3, none⟩] 4 [⟨1, "A", 2, 2, 4⟩]
    (by norm_num [process_items, find_product, dec_stock, mkLine]) rfl
  rw [h]
  rfl

/-! ### The bill-ledger invariant used for claim C1 -/

/-- Every ledger id is strictly increasing along the ledger and bounded by the
current counter value. -/
def ledgerInv (st : St) : Prop :=
  ((st.bills_db.map (fun b => b.bill_id)).Pairwise (fun a b => a < b))
  ∧ ∀ b ∈ st.bills_db, b.bill_id ≤ st.bill_counter

lemma ledgerInv_step (st : St) (items : List BillItem) (cid : Option Int)
    (h : ledgerInv st) : ledgerInv (create_bill st items cid).1 := by
  cases hp : process_items st.products_db items 0 [] with
  | mk db1 r =>
    cases r with
    | error e =>
      refine ⟨?_, ?_⟩
      · simpa [create_bill, hp] using h.1
      · intro b hb
        simp only [create_bill, hp] at hb ⊢
        exact Nat.le_succ_of_le (h.2 b hb)
    | ok v =>
      cases v with
      | mk s ls =>
        refine ⟨?_, ?_⟩
        · simp only [create_bill, hp, List.map_append, List.map_cons,
            List.map_nil]
          rw [List.pairwise_append]
          refine ⟨h.1, List.pairwise_singleton _ _, ?_⟩
          intro a ha b hb
          simp only [List.mem_singleton] at hb
          subst hb
          simp only [List.mem_map] at ha
          obtain ⟨rec, hrec, hid⟩ := ha
          subst hid
          exact Nat.lt_succ_of_le (h.2 rec hrec)
        · intro b hb
          simp only [create_bill, hp, List.mem_append,
            List.mem_singleton] at hb ⊢
          rcases hb with hb | hb
          · exact Nat.le_succ_of_le (h.2 b hb)
          · subst hb; exact le_refl _

lemma run_bills_inv (calls : List (List BillItem × Option Int)) :
    ∀ st : St, ledgerInv st → ledgerInv (run_bills st calls) := by
  induction calls with
  | nil => intro st h; exact h
  | cons c rest ih =>
    intro st h
    cases c with
    | mk items cid => exact ih _ (ledgerInv_step st items cid h)

lemma run_bills_counter (calls : List (List BillItem × Option Int)) :
    ∀ st : St, (run_bills st calls).bill_counter =
      st.bill_counter + calls.length := by
  induction calls with
  | nil => intro st; simp [run_bills]
  | cons c rest ih =>
    intro st
    cases c with
    | mk items cid =>
      rw [run_bills, ih, create_bill_counter]
      simp only [List.length_cons]
      omega

/-- Counterexample to claim C1: from the initial state, the failed call
`create_bill init [⟨1, 1⟩]` (product 1 is not in the empty catalog) still
advances the counter from 0 to 1, and after that failure a successful
empty-items bill is appended with sequence number 2, so the ledger's sequence
numbers do not start at 1. -/
theorem C1_counterexample :
    (create_bill init [⟨1, 1⟩] none).2 = .error (.notFound (notFoundMsg 1))
    ∧ init.bill_counter = 0
    ∧ (create_bill init [⟨1, 1⟩] none).1.bill_counter = 1
    ∧ (run_bills init [([⟨1, 1⟩], none), ([], none)]).bills_db.map
        (fun b => b.bill_id) = [2] := by
  refine ⟨rfl, rfl, rfl, ?_⟩
  norm_num [run_bills, create_bill, process_items, find_product, init,
    pyRound2, roundHalfEven]

/-- Claim C1 as amended: the counter starts at 0 and is advanced exactly once
per `create_bill` call, by failed calls as well as successful ones; each
successful call appends exactly one record carrying the post-increment counter
value, and a failed call appends nothing. Consequently, over any sequence of
bill requests from the initial state the ledger's sequence numbers are
strictly increasing and the counter equals the number of calls — but failed
calls consume sequence numbers, so the appended numbers may skip values and
start at 1 only when the first call succeeds. -/
theorem C1_amended_sequence_numbers :
    (∀ (st : St) (items : List BillItem) (cid : Option Int),
      (create_bill st items cid).1.bill_counter = st.bill_counter + 1)
    ∧ (∀ (st : St) (items : List BillItem) (cid : Option Int)
        (st2 : St) (rec : BillRecord),
      create_bill st items cid = (st2, .ok rec) →
      st2.bills_db = st.bills_db ++ [rec] ∧ rec.bill_id = st.bill_counter + 1)
    ∧ (∀ (st : St) (items : List BillItem) (cid : Option Int)
        (st2 : St) (e : Err),
      create_bill st items cid = (st2, .error e) →
      st2.bills_db = st.bills_db)
    ∧ (∀ calls : List (List BillItem × Option Int),
      ((run_bills init calls).bills_db.map (fun b => b.bill_id)).Pairwise
        (fun a b => a < b)
      ∧ (run_bills init calls).bill_counter = calls.length) := by
  refine ⟨create_bill_counter, ?_, ?_, ?_⟩
  · intro st items cid st2 rec h
    cases hp : process_items st.products_db items 0 [] with
    | mk db1 r =>
      cases r with
      | error e => simp [create_bill, hp] at h
      | ok v =>
        cases v with
        | mk s ls =>
          simp only [create_bill, hp] at h
          obtain ⟨h1, h2⟩ := Prod.mk.injEq .. ▸ h
          cases h
          exact ⟨rfl, rfl⟩
  · intro st items cid st2 e h
    cases hp : process_items st.products_db items 0 [] with
    | mk db1 r =>
      cases r with
      | ok v =>
        cases v with
        | mk s ls => simp [create_bill, hp] at h
      | error e1 =>
        simp only [create_bill, hp] at h
        cases h
        rfl
  · intro calls
    refine ⟨(run_bills_inv calls init ⟨List.Pairwise.nil, by simp [init]⟩).1, ?_⟩
    rw [run_bills_counter]
    simp [init]

/-- Witness for the amended C1: a concrete successful call appends its record
with the post-increment sequence number, and a concrete failed call appends
nothing. -/
theorem C1_amended_sequence_numbers_witness :
    ((⟨[⟨1, "A", none, 50, 8, none⟩],
        [⟨1, none, [⟨1, "A", 2, 50, 100⟩], 100, 18, 118⟩], 1⟩ : St).bills_db =
      [] ++ [⟨1, none, [⟨1, "A", 2, 50, 100⟩], 100, 18, 118⟩]
      ∧ (⟨1, none, [⟨1, "A", 2, 50, 100⟩], 100, 18, 118⟩ : BillRecord).bill_id
        = 0 + 1)
    ∧ (⟨[], [], 1⟩ : St).bills_db = init.bills_db := by
  constructor
  · exact C1_amended_sequence_numbers.2.1 ⟨[⟨1, "A", none, 50, 10, none⟩], [], 0⟩
      [⟨1, 2⟩] none _ _
      (by norm_num [create_bill, process_items, find_product, dec_stock,
        mkLine, pyRound2, roundHalfEven])
  · exact C1_amended_sequence_numbers.2.2.1 init [⟨1, 1⟩] none _ _ rfl

/-- Counterexample to claim C3: the code rounds ties to even (Python's
`round`), not half-up. For the successful bill with subtotal 0.25 the code's
tax is `pyRound2 (0.25 × 0.18)` = 0.04 (= 1/25), while the claim's half-up
rounding of the same product 0.045 gives 0.05 (= 1/20). -/
theorem C3_counterexample :
    (create_bill ⟨[⟨1, "A", none, 1 / 4, 10, none⟩], [], 0⟩ [⟨1, 1⟩] none).2 =
      .ok ⟨1, none, [⟨1, "A", 1, 1 / 4, 1 / 4⟩], 1 / 4, 1 / 25, 29 / 100⟩
    ∧ specRoundHalfUp2 ((1 / 4 : ℚ) * (18 / 100)) = 1 / 20
    ∧ (1 / 25 : ℚ) ≠ 1 / 20 := by
  refine ⟨?_, ?_, by norm_num⟩
  · norm_num [create_bill, process_items, find_product, dec_stock, mkLine,
      pyRound2, roundHalfEven]
  · norm_num [specRoundHalfUp2, round_eq]

/-- Claim C3 as amended: for every successful bill the tax equals
`round(subtotal × 0.18, 2)` and the grand total equals
`round(subtotal + tax, 2)`, where `round` is Python's rounding to 2 decimal
places with ties to even (banker's rounding), applied independently to the
tax and to the grand total; in particular for a subtotal of 100.00 the tax is
18.00 and the grand total 118.00. -/
theorem C3_amended_tax_rounding (st : St) (items : List BillItem)
    (cid : Option Int) (st2 : St) (rec : BillRecord)
    (h : create_bill st items cid = (st2, .ok rec)) :
    rec.gst_amount = pyRound2 (rec.subtotal * (18 / 100))
    ∧ rec.total = pyRound2 (rec.subtotal + rec.gst_amount)
    ∧ (rec.subtotal = 100 → rec.gst_amount = 18 ∧ rec.total = 118) := by
  cases hp : process_items st.products_db items 0 [] with
  | mk db1 r =>
    cases r with
    | error e => simp [create_bill, hp] at h
    | ok v =>
      cases v with
      | mk s ls =>
        simp only [create_bill, hp] at h
        injection h with h1 h2
        subst h1
        injection h2 with h3
        subst h3
        refine ⟨rfl, rfl, ?_⟩
        intro h100
        have hs : s = 100 := h100
        subst hs
        constructor <;> norm_num [pyRound2, roundHalfEven]

/-- Witness for the amended C3: a successful bill with subtotal 100 carries
tax 18 and total 118. -/
theorem C3_amended_tax_rounding_witness :
    (⟨1, none, [⟨1, "A", 2, 50, 100⟩], 100, 18, 118⟩ : BillRecord).gst_amount =
      pyRound2 ((⟨1, none, [⟨1, "A", 2, 50, 100⟩], 100, 18, 118⟩ :
        BillRecord).subtotal * (18 / 100))
    ∧ (⟨1, none, [⟨1, "A", 2, 50, 100⟩], 100, 18, 118⟩ :
        BillRecord).gst_amount = 18 := by
  have h := C3_amended_tax_rounding ⟨[⟨1, "A", none, 50, 10, none⟩], [], 0⟩
    [⟨1, 2⟩] none
    ⟨[⟨1, "A", none, 50, 8, none⟩],
      [⟨1, none, [⟨1, "A", 2, 50, 100⟩], 100, 18, 118⟩], 1⟩
    ⟨1, none, [⟨1, "A", 2, 50, 100⟩], 100, 18, 118⟩
    (by norm_num [create_bill, process_items, find_product, dec_stock,
      mkLine, pyRound2, roundHalfEven])
  exact ⟨h.1, (h.2.2 rfl).1⟩

/-! ### Invariant preservation lemmas for claim C7 -/

lemma update_product_ids (db : List Product) (pid : Int) (up : Product) :
    ((update_product db pid up).1).map (fun p => p.id) =
      db.map (fun p => p.id) := by
  induction db with
  | nil => rfl
  | cons q rest ih =>
    by_cases hq : q.id = pid
    · rw [update_product, if_pos hq]
      simp [hq]
    · rw [update_product, if_neg hq]
      cases hu : update_product rest pid up with
      | mk rest1 r =>
        have h1 : rest1.map (fun p => p.id) = rest.map (fun p => p.id) := by
          rw [← ih, hu]
        simp [h1]

lemma delete_product_sublist (db : List Product) (pid : Int) :
    ((delete_product db pid).1).Sublist db := by
  induction db with
  | nil => simp [delete_product]
  | cons q rest ih =>
    by_cases hq : q.id = pid
    · rw [delete_product, if_pos hq]
      exact List.Sublist.cons _ (List.Sublist.refl _)
    · cases hu : delete_product rest pid with
      | mk rest1 r =>
        rw [delete_product, if_neg hq, hu]
        have h1 : rest1.Sublist rest := by rw [hu] at ih; exact ih
        exact List.Sublist.cons₂ _ h1

/-- Counterexample to claim C7: `add_product` performs no validation beyond
identifier uniqueness, so from the empty catalog (which satisfies the
invariant) adding a product with quantity -5 succeeds and produces a catalog
with a negative quantity on hand. -/
theorem C7_counterexample :
    allNonneg []
    ∧ (add_product [] ⟨1, "A", none, 1, -5, none⟩).2 =
      .ok ⟨1, "A", none, 1, -5, none⟩
    ∧ (add_product [] ⟨1, "A", none, 1, -5, none⟩).1 =
      [⟨1, "A", none, 1, -5, none⟩]
    ∧ ¬ allNonneg (add_product [] ⟨1, "A", none, 1, -5, none⟩).1 := by
  refine ⟨by simp [allNonneg], rfl, rfl, ?_⟩
  intro h
  have hm : (⟨1, "A", none, 1, -5, none⟩ : Product) ∈
      (add_product [] ⟨1, "A", none, 1, -5, none⟩).1 := by
    simp [add_product]
  have := h _ hm
  norm_num at this

/-- Claim C7 as amended: identifier uniqueness is preserved by every mutating
operation (add, update, delete, bill creation), and quantity non-negativity is
preserved by delete and bill creation; but add and update store whatever
quantity the caller supplies, including negative ones, so they do not preserve
non-negativity (the reads and reports mutate nothing by construction). -/
theorem C7_amended_invariants :
    (∀ (db : List Product) (p : Product), idsUnique db →
      idsUnique (add_product db p).1)
    ∧ (∀ (db : List Product) (pid : Int) (up : Product), idsUnique db →
      idsUnique (update_product db pid up).1)
    ∧ (∀ (db : List Product) (pid : Int), idsUnique db →
      idsUnique (delete_product db pid).1)
    ∧ (∀ (st : St) (items : List BillItem) (cid : Option Int),
      idsUnique st.products_db →
      idsUnique (create_bill st items cid).1.products_db)
    ∧ (∀ (db : List Product) (pid : Int), allNonneg db →
      allNonneg (delete_product db pid).1)
    ∧ (∀ (st : St) (items : List BillItem) (cid : Option Int),
      allNonneg st.products_db →
      allNonneg (create_bill st items cid).1.products_db) := by
  refine ⟨?_, ?_, ?_, ?_, ?_, ?_⟩
  · intro db p h
    by_cases ha : db.any (fun existing => existing.id = p.id) = true
    · simpa [add_product, ha] using h
    · rw [add_product, if_neg ha]
      have hnotin : ∀ q ∈ db, q.id ≠ p.id := by
        intro q hq he
        apply ha
        simp only [List.any_eq_true, decide_eq_true_eq]
        exact ⟨q, hq, he⟩
      simpa [idsUnique, List.nodup_append] using ⟨h, hnotin⟩
  · intro db pid up h
    have := update_product_ids db pid up
    rw [idsUnique, this]
    exact h
  · intro db pid h
    show ((delete_product db pid).1.map (fun p : Product => p.id)).Nodup
    exact ((delete_product_sublist db pid).map (fun p : Product => p.id)).nodup h
  · intro st items cid h
    cases hp : process_items st.products_db items 0 [] with
    | mk db1 r =>
      have hids : db1.map (fun p => p.id) =
          st.products_db.map (fun p => p.id) := by
        have h2 := process_items_ids items st.products_db 0 []
        rwa [hp] at h2
      cases r with
      | error e =>
        simp only [create_bill, hp]
        rw [idsUnique, hids]
        exact h
      | ok v =>
        cases v with
        | mk s ls =>
          simp only [create_bill, hp]
          rw [idsUnique, hids]
          exact h
  · intro db pid h
    exact fun p hp => h p ((delete_product_sublist db pid).subset hp)
  · intro st items cid h
    cases hp : process_items st.products_db items 0 [] with
    | mk db1 r =>
      have hnn : allNonneg db1 := by
        have h2 := process_items_nonneg items st.products_db 0 [] h
        rwa [hp] at h2
      cases r with
      | error e => simpa [create_bill, hp] using hnn
      | ok v =>
        cases v with
        | mk s ls => simpa [create_bill, hp] using hnn

/-- Witness for the amended C7: on a concrete catalog, adding a fresh id
keeps the ids unique, and a concrete successful bill keeps every quantity
non-negative. -/
theorem C7_amended_invariants_witness :
    idsUnique (add_product [⟨1, "A", none, 2, 3, none⟩]
      ⟨2, "B", none, 4, 5, none⟩).1
    ∧ allNonneg (create_bill ⟨[⟨1, "A", none, 2, 3, none⟩], [], 0⟩
      [⟨1, 2⟩] none).1.products_db :=
  ⟨C7_amended_invariants.1 [⟨1, "A", none, 2, 3, none⟩]
      ⟨2, "B", none, 4, 5, none⟩ (by decide),
   C7_amended_invariants.2.2.2.2.2 ⟨[⟨1, "A", none, 2, 3, none⟩], [], 0⟩
      [⟨1, 2⟩] none (by decide)⟩

end Storebuddy
